import Mathlib

/-!
Verification of the configuration discovery core of `claude-dash`
(`src/claude_dash/config.py`), shallowly embedded in Lean 4.

Modelling conventions:
* A filesystem path is a list of name components (`FsPath`); the workspace
  argument is the already resolved absolute root (the Python code resolves
  it with `Path.resolve()` before all probing, and the claims quantify over
  resolved roots, so resolution itself is not modelled).
* The filesystem is an abstract state `FS`: `Path.exists` never raises in
  Python (it maps OS errors to `False`), so it is a plain `Bool`;
  `Path.read_text` and `Path.iterdir` can raise, so they return
  `Except String _` whose error value is the exception's message text;
  `Path.is_dir` maps OS errors to `False`, so it is a plain `Bool`.
  `FS.home` is the result of Python's `Path.home()`.
* `json.loads` is a library function, not code of this repository; it is an
  abstract argument `J : String → Except String Json` of the functions that
  call it (error value = the exception text that Python would interpolate
  into `f"[Error: {e}]"`).
* Python exceptions inside the embedded functions are `Except.error` with a
  message; a `try`/`except` block is a `match` on the `Except` value.
* JSON numbers are modelled as `Int` (no claim involves numeric fields);
  Python's `str()`/`repr()` rendering of non-string values is modelled by
  `pyStr`/`pyRepr`, exact for `None`/booleans/strings/integers (the only
  values a claim can observe) and approximate for containers.
-/

/-- A JSON value, as produced by `json.loads`.  An object is its field list
in insertion order (Python dicts preserve insertion order; `json.loads`
never produces duplicate keys). -/
inductive Json where
  | null : Json
  | bool : Bool → Json
  | num : Int → Json
  | str : String → Json
  | arr : List Json → Json
  | obj : List (String × Json) → Json


/-- A filesystem path, as a list of components from the root. -/
abbrev FsPath := List String

/-- Rendering of a path for interpolation into messages (Python `str(path)`). -/
def pathStr (p : FsPath) : String := String.intercalate "/" p

/-- The abstract filesystem state one discovery pass runs against. -/
structure FS where
  /-- `Path.exists()` — total, Python maps OS errors to `False`. -/
  pathExists : FsPath → Bool
  /-- `Path.is_dir()` — total, Python maps OS errors to `False`. -/
  isDir : FsPath → Bool
  /-- `Path.read_text()` — the error value is the exception text. -/
  readText : FsPath → Except String String
  /-- `Path.iterdir()`, as the list of child names — can raise
  (e.g. `PermissionError` on an unreadable directory). -/
  listDir : FsPath → Except String (List String)
  /-- `Path.home()`. -/
  home : FsPath

/-- dataclass `MCPServer` of `config.py`. -/
structure MCPServer where
  name : String
  command : Option Json := none
  url : Option Json := none
  tools_count : Option Json := none
  status : String := "unknown"


/-- dataclass `Skill` of `config.py`. -/
structure Skill where
  name : String
  description : String := ""
  location : String := ""


/-- dataclass `ClaudeConfig` of `config.py`. -/
structure ClaudeConfig where
  workspace : FsPath
  claude_md_path : Option FsPath := none
  claude_md_content : String := ""
  claude_md_exists : Bool := false
  mcp_servers : List MCPServer := []
  skills : List Skill := []
  mcp_config_path : Option FsPath := none


/-- Association-list lookup on an object's field list (first occurrence,
matching Python dict lookup on the unique-key dicts `json.loads` builds). -/
def lookupJ (fields : List (String × Json)) (k : String) : Option Json :=
  (fields.find? (fun p => p.1 == k)).map (fun p => p.2)

/-- Python attribute access `x.get` / `x.items`: succeeds exactly when the
value is a dict, otherwise raises `AttributeError`. -/
def pyGetAttr (j : Json) : Except String (List (String × Json)) :=
  match j with
  | .obj fields => .ok fields
  | _ => .error "AttributeError: object has no attribute get"

/-- `dict.get(k)` on a known dict: `None` for an absent key.  A stored JSON
`null` also comes back as Python `None`, so both collapse to `none`. -/
def pyDictGetVal (fields : List (String × Json)) (k : String) : Option Json :=
  match lookupJ fields k with
  | some .null => none
  | v => v

mutual
/-- Python `repr()` of a JSON-decoded value (exact for the atoms any claim
can observe; containers rendered in the same spirit). -/
def pyRepr : Json → String
  | .null => "None"
  | .bool true => "True"
  | .bool false => "False"
  | .num n => toString n
  | .str s => "\x27" ++ s ++ "\x27"
  | .arr xs => "[" ++ String.intercalate ", " (pyReprList xs) ++ "]"
  | .obj fields => "\x7b" ++ String.intercalate ", " (pyReprFields fields) ++ "\x7d"

def pyReprList : List Json → List String
  | [] => []
  | x :: xs => pyRepr x :: pyReprList xs

def pyReprFields : List (String × Json) → List String
  | [] => []
  | (k, v) :: xs => ("\x27" ++ k ++ "\x27: " ++ pyRepr v) :: pyReprFields xs
end

/-- Python `str()` of a JSON-decoded value, as an f-string interpolates it. -/
def pyStr : Json → String
  | .str s => s
  | j => pyRepr j

/-- `' '.join` over a list of decoded values: `TypeError` unless every
element is a string. -/
def pyJoinStrList : List Json → Except String (List String)
  | [] => .ok []
  | .str s :: rest => (pyJoinStrList rest).map (fun tl => s :: tl)
  | _ :: _ => .error "TypeError: sequence item: expected str instance"

/-- Python `sep.join(x)`: a string joins its characters, a list must be all
strings, a dict joins its keys, anything else raises `TypeError`. -/
def pyJoin (sep : String) (j : Json) : Except String String :=
  match j with
  | .str s => .ok (String.intercalate sep (s.toList.map Char.toString))
  | .arr xs => (pyJoinStrList xs).map (String.intercalate sep)
  | .obj fields => .ok (String.intercalate sep (fields.map (fun p => p.1)))
  | _ => .error "TypeError: can only join an iterable of strings"

/-- The synthetic error entry `MCPServer(name=f"[Error: {e}]", status="error")`. -/
def errorServer (e : String) : MCPServer :=
  { name := "[Error: " ++ e ++ "]", status := "error" }

/-- The body of the per-entry loop of `find_mcp_config`: build one
`MCPServer` from a name/config pair, raising where Python raises
(`config.get` on a non-dict, `' '.join` on non-strings). -/
def mkServer (name : String) (config : Json) : Except String MCPServer :=
  match pyGetAttr config with
  | .error e => .error e
  | .ok fields =>
    let server : MCPServer :=
      { name := name
        command := pyDictGetVal fields "command"
        url := pyDictGetVal fields "url"
        status := "configured" }
    if (lookupJ fields "args").isSome then
      match pyJoin " " ((lookupJ fields "args").getD (.arr [])) with
      | .error e => .error e
      | .ok joined =>
        let base := pyStr ((lookupJ fields "command").getD (.str ""))
        .ok { server with command := some (.str (base ++ " " ++ joined)) }
    else
      .ok server

/-- The `for name, config in mcp_servers.items()` loop: entries appended in
order; a raising entry keeps the entries already appended and reports the
exception (second component). -/
def buildServers : List (String × Json) → List MCPServer × Option String
  | [] => ([], none)
  | (n, c) :: rest =>
    match mkServer n c with
    | .ok s => (s :: (buildServers rest).1, (buildServers rest).2)
    | .error e => ([], some e)

/-- `data.get("mcpServers", data.get("servers", {}))` on a dict `data`. -/
def serversField (fields : List (String × Json)) : Json :=
  (lookupJ fields "mcpServers").getD ((lookupJ fields "servers").getD (.obj []))

/-- The entry list obtained from the alias-resolved servers value: the
`isinstance(mcp_servers, dict)` guard skips silently on a non-dict, and an
exception inside the loop appends one synthetic error entry. -/
def entriesOf (mcp_servers : Json) : List MCPServer :=
  match mcp_servers with
  | .obj entries =>
    match buildServers entries with
    | (acc, none) => acc
    | (acc, some e) => acc ++ [errorServer e]
  | _ => []

/-- The `try` block of `find_mcp_config` run on the one matched file:
read, parse, resolve the field alias, build entries; every exception is
caught and becomes one synthetic error entry appended after whatever had
already been built (for read/parse/attribute failures that is nothing). -/
def parseMcpFile (J : String → Except String Json) (fs : FS) (path : FsPath) :
    List MCPServer :=
  match fs.readText path with
  | .error e => [errorServer e]
  | .ok text =>
    match J text with
    | .error e => [errorServer e]
    | .ok data =>
      match pyGetAttr data with
      | .error e => [errorServer e]
      | .ok fields => entriesOf (serversField fields)

/-- The candidate list of `find_mcp_config`, in source order. -/
def mcpCandidates (fs : FS) (workspace : FsPath) : List FsPath :=
  [ workspace ++ [".claude", "mcp.json"],
    workspace ++ ["mcp.json"],
    workspace ++ [".mcp.json"],
    workspace ++ ["config", "mcp.json"],
    workspace ++ ["config", "mcporter.json"],
    fs.home ++ [".config", "claude", "mcp.json"],
    fs.home ++ [".claude", "mcp.json"] ]

/-- The `for path in candidates: if path.exists(): ...` skeleton shared by
both locators: the first existing candidate, if any. -/
def firstExisting (fs : FS) : List FsPath → Option FsPath
  | [] => none
  | p :: rest => if fs.pathExists p then some p else firstExisting fs rest

/-- `find_mcp_config` of `config.py`: first existing candidate wins
(`config_path` is set before the `try`, and both branches `break`). -/
def find_mcp_config (J : String → Except String Json) (fs : FS)
    (workspace : FsPath) : Option FsPath × List MCPServer :=
  match firstExisting fs (mcpCandidates fs workspace) with
  | none => (none, [])
  | some p => (some p, parseMcpFile J fs p)

/-- The candidate list of `find_claude_md`, in source order. -/
def claudeMdCandidates (workspace : FsPath) : List FsPath :=
  [ workspace ++ ["CLAUDE.md"],
    workspace ++ [".claude", "CLAUDE.md"],
    workspace ++ ["claude.md"] ]

/-- `find_claude_md` of `config.py`: return the first existing candidate
with its text, substituting `f"[Error reading {path}]"` when the read
raises, and `(None, "")` when no candidate exists. -/
def find_claude_md (fs : FS) (workspace : FsPath) : Option FsPath × String :=
  match firstExisting fs (claudeMdCandidates workspace) with
  | none => (none, "")
  | some p =>
    match fs.readText p with
    | .ok content => (some p, content)
    | .error _ => (some p, "[Error reading " ++ pathStr p ++ "]")

/-- Python `content.split("\n")`, character by character: split on every
newline, keeping empty pieces (so `""` gives `[""]` and a trailing newline
gives a trailing `""`). -/
def splitLinesAux : List Char → List Char → List String
  | [], acc => [String.mk acc.reverse]
  | c :: rest, acc =>
    if c == '\n' then String.mk acc.reverse :: splitLinesAux rest []
    else splitLinesAux rest (c :: acc)

/-- `content.split("\n")` on a string. -/
def splitLines (s : String) : List String :=
  splitLinesAux s.toList []

/-- Python `line.strip()`: drop whitespace from both ends. -/
def pyStrip (s : String) : String :=
  String.mk (((s.toList.dropWhile Char.isWhitespace).reverse.dropWhile
    Char.isWhitespace).reverse)

/-- Python `line.startswith("#")`: the first character is `#`. -/
def pyStartsWithHash (s : String) : Bool :=
  match s.toList with
  | [] => false
  | c :: _ => c == '#'

/-- Python `s[:n]`: the first `n` characters. -/
def pyTake (s : String) (n : Nat) : String :=
  String.mk (s.toList.take n)

/-- The description scan of `find_skills`: first line whose strip is
non-empty and which (unstripped) does not start with `#`; that line
stripped and cut to 100 characters; `""` when no line qualifies. -/
def firstDescLine : List String → String
  | [] => ""
  | l :: rest =>
    if !(pyStrip l == "") && !(pyStartsWithHash l) then pyTake (pyStrip l) 100
    else firstDescLine rest

/-- Description extraction from a descriptor's text (`content.split("\n")`
then the scan loop). -/
def extractDescription (content : String) : String :=
  firstDescLine (splitLines content)

/-- The per-subdirectory body of `find_skills`: build one `Skill`; a read
failure of `SKILL.md` is swallowed (`description` stays empty). -/
def mkSkill (fs : FS) (item : FsPath) (n : String) : Skill :=
  let skill_md := item ++ ["SKILL.md"]
  let description :=
    if fs.pathExists skill_md then
      match fs.readText skill_md with
      | .ok content => extractDescription content
      | .error _ => ""
    else ""
  { name := n
    description := description
    location := if fs.pathExists skill_md then pathStr skill_md else pathStr item }

/-- One candidate root of `find_skills`: if it exists and is a directory,
every immediate subdirectory becomes a `Skill`; `iterdir()` is outside any
`try`, so its failure propagates. -/
def scanSkillDir (fs : FS) (dir : FsPath) : Except String (List Skill) :=
  if fs.pathExists dir ∧ fs.isDir dir then
    match fs.listDir dir with
    | .error e => .error e
    | .ok names =>
      .ok (names.filterMap (fun n =>
        if fs.isDir (dir ++ [n]) then some (mkSkill fs (dir ++ [n]) n) else none))
  else .ok []

/-- The candidate roots of `find_skills`, in source order (the third is the
fixed system-wide location `/opt/clawdbot/skills`). -/
def skillRoots (workspace : FsPath) : List FsPath :=
  [ workspace ++ ["skills"],
    workspace ++ [".claude", "skills"],
    ["opt", "clawdbot", "skills"] ]

/-- The accumulation loop of `find_skills` over the candidate roots. -/
def find_skills_go (fs : FS) : List FsPath → Except String (List Skill)
  | [] => .ok []
  | d :: rest =>
    match scanSkillDir fs d with
    | .error e => .error e
    | .ok s =>
      match find_skills_go fs rest with
      | .error e => .error e
      | .ok r => .ok (s ++ r)

/-- `find_skills` of `config.py`. -/
def find_skills (fs : FS) (workspace : FsPath) : Except String (List Skill) :=
  find_skills_go fs (skillRoots workspace)

/-- `load_config` of `config.py`, for an already resolved workspace root:
runs the three locators and assembles the snapshot; an exception escaping a
locator escapes `load_config` too. -/
def load_config (J : String → Except String Json) (fs : FS)
    (workspace : FsPath) : Except String ClaudeConfig :=
  let cmd := find_claude_md fs workspace
  let mcp := find_mcp_config J fs workspace
  match find_skills fs workspace with
  | .error e => .error e
  | .ok skills =>
    .ok { workspace := workspace
          claude_md_path := cmd.1
          claude_md_content := cmd.2
          claude_md_exists := cmd.1.isSome
          mcp_servers := mcp.2
          skills := skills
          mcp_config_path := mcp.1 }

/-! ## Shared lemmas about the probe loops and the aggregator -/

theorem firstExisting_append (fs : FS) (ps1 : List FsPath) (p : FsPath)
    (ps2 : List FsPath) (hprev : ∀ q ∈ ps1, fs.pathExists q = false)
    (hex : fs.pathExists p = true) :
    firstExisting fs (ps1 ++ p :: ps2) = some p := by
  induction ps1 with
  | nil => simp [firstExisting, hex]
  | cons q qs ih =>
    have hq : fs.pathExists q = false := hprev q (List.mem_cons_self q qs)
    simp only [List.cons_append, firstExisting, hq]
    exact ih (fun r hr => hprev r (List.mem_cons_of_mem q hr))

theorem firstExisting_eq_none (fs : FS) (l : List FsPath)
    (h : ∀ q ∈ l, fs.pathExists q = false) :
    firstExisting fs l = none := by
  induction l with
  | nil => rfl
  | cons q qs ih =>
    have hq : fs.pathExists q = false := h q (List.mem_cons_self q qs)
    simp only [firstExisting, hq]
    exact ih (fun r hr => h r (List.mem_cons_of_mem q hr))

theorem find_mcp_config_matched (J : String → Except String Json) (fs : FS)
    (w p : FsPath) (ps1 ps2 : List FsPath)
    (hdec : mcpCandidates fs w = ps1 ++ p :: ps2)
    (hprev : ∀ q ∈ ps1, fs.pathExists q = false)
    (hex : fs.pathExists p = true) :
    find_mcp_config J fs w = (some p, parseMcpFile J fs p) := by
  unfold find_mcp_config
  rw [hdec, firstExisting_append fs ps1 p ps2 hprev hex]

theorem load_config_isOk_eq (J : String → Except String Json) (fs : FS)
    (w : FsPath) :
    (load_config J fs w).isOk = (find_skills fs w).isOk := by
  unfold load_config
  cases h : find_skills fs w <;> simp only [h, Except.isOk] <;> rfl

/-! ## Concrete fixtures used by counterexamples and witnesses -/

/-- A decode function that rejects every text (no registry file content is
well-formed JSON). -/
def jFail : String → Except String Json :=
  fun _ => Except.error "Expecting value: line 1 column 1 (char 0)"

/-- A filesystem where only `w/config/mcp.json` exists (a lower-precedence
registry candidate), holding the text `"oops"`. -/
def fsLower : FS :=
  { pathExists := fun p => p == ["w", "config", "mcp.json"]
    isDir := fun _ => false
    readText := fun p =>
      if p == ["w", "config", "mcp.json"] then .ok "oops"
      else .error "FileNotFoundError"
    listDir := fun _ => .error "FileNotFoundError"
    home := ["home", "user"] }

/-! ## C3 -/

/-- C3: `find_mcp_config` probes the fixed candidate list
(`.claude/mcp.json`, `mcp.json`, `.mcp.json`, `config/mcp.json`,
`config/mcporter.json` under the workspace, then the two user-global
locations, in that order) and parses exactly the first candidate that
exists; every other candidate is ignored, never merged. -/
theorem find_mcp_config_first_existing_wins (J : String → Except String Json)
    (fs : FS) (w p : FsPath) (ps1 ps2 : List FsPath)
    (hdec : mcpCandidates fs w = ps1 ++ p :: ps2)
    (hprev : ∀ q ∈ ps1, fs.pathExists q = false)
    (hex : fs.pathExists p = true) :
    mcpCandidates fs w =
      [ w ++ [".claude", "mcp.json"], w ++ ["mcp.json"], w ++ [".mcp.json"],
        w ++ ["config", "mcp.json"], w ++ ["config", "mcporter.json"],
        fs.home ++ [".config", "claude", "mcp.json"],
        fs.home ++ [".claude", "mcp.json"] ] ∧
    find_mcp_config J fs w = (some p, parseMcpFile J fs p) :=
  ⟨rfl, find_mcp_config_matched J fs w p ps1 ps2 hdec hprev hex⟩

/-- C3 witness: with only the lower-precedence `w/config/mcp.json` present,
that file is the one parsed. -/
theorem find_mcp_config_first_existing_wins_witness :
    find_mcp_config jFail fsLower ["w"] =
      (some ["w", "config", "mcp.json"],
       parseMcpFile jFail fsLower ["w", "config", "mcp.json"]) :=
  (find_mcp_config_first_existing_wins jFail fsLower ["w"]
    ["w", "config", "mcp.json"]
    [["w", ".claude", "mcp.json"], ["w", "mcp.json"], ["w", ".mcp.json"]]
    [["w", "config", "mcporter.json"],
     ["home", "user", ".config", "claude", "mcp.json"],
     ["home", "user", ".claude", "mcp.json"]]
    rfl (by decide) (by decide)).2

/-! ## C2 -/

/-- C2: when the first existing registry candidate's text does not parse,
`find_mcp_config` returns exactly one entry, the synthetic
`MCPServer(name=f"[Error: {e}]", status="error")`, and stops at that file;
the parse failure never escapes `load_config` (which can only fail through
the skills scanner). -/
theorem find_mcp_config_invalid_json (J : String → Except String Json)
    (fs : FS) (w p : FsPath) (ps1 ps2 : List FsPath) (text e : String)
    (hdec : mcpCandidates fs w = ps1 ++ p :: ps2)
    (hprev : ∀ q ∈ ps1, fs.pathExists q = false)
    (hex : fs.pathExists p = true)
    (hread : fs.readText p = .ok text)
    (hparse : J text = .error e) :
    find_mcp_config J fs w = (some p, [errorServer e]) ∧
    ((find_skills fs w).isOk = true → (load_config J fs w).isOk = true) := by
  constructor
  · rw [find_mcp_config_matched J fs w p ps1 ps2 hdec hprev hex]
    simp only [parseMcpFile, hread, hparse]
  · intro hsk
    rw [load_config_isOk_eq]
    exact hsk

/-- C2 witness: the unparseable lower-precedence file yields exactly the one
synthetic error entry carrying the decode error text, and `load_config`
still succeeds. -/
theorem find_mcp_config_invalid_json_witness :
    find_mcp_config jFail fsLower ["w"] =
      (some ["w", "config", "mcp.json"],
       [errorServer "Expecting value: line 1 column 1 (char 0)"]) ∧
    (load_config jFail fsLower ["w"]).isOk = true := by
  have h := find_mcp_config_invalid_json jFail fsLower ["w"]
    ["w", "config", "mcp.json"]
    [["w", ".claude", "mcp.json"], ["w", "mcp.json"], ["w", ".mcp.json"]]
    [["w", "config", "mcporter.json"],
     ["home", "user", ".config", "claude", "mcp.json"],
     ["home", "user", ".claude", "mcp.json"]]
    "oops" "Expecting value: line 1 column 1 (char 0)"
    rfl (by decide) (by decide) rfl rfl
  exact ⟨h.1, h.2 (by decide)⟩

/-! ## C4 and C5: shape handling and field-alias resolution -/

/-- Python `isinstance(x, dict)` on a JSON-decoded value. -/
def Json.isObj : Json → Bool
  | .obj _ => true
  | _ => false

theorem pyGetAttr_of_not_obj (j : Json) (h : j.isObj = false) :
    pyGetAttr j = .error "AttributeError: object has no attribute get" := by
  cases j <;> first | rfl | simp [Json.isObj] at h

theorem entriesOf_of_not_obj (j : Json) (h : j.isObj = false) :
    entriesOf j = [] := by
  cases j <;> first | rfl | simp [Json.isObj] at h

/-- A single registry file at the highest-precedence candidate
`w/.claude/mcp.json`, holding the given text. -/
def fsOneFile (t : String) : FS :=
  { pathExists := fun p => p == ["w", ".claude", "mcp.json"]
    isDir := fun _ => false
    readText := fun p =>
      if p == ["w", ".claude", "mcp.json"] then .ok t
      else .error "FileNotFoundError"
    listDir := fun _ => .error "FileNotFoundError"
    home := ["home", "user"] }

/-- A decode function with three well-formed shapes used as fixtures:
`"strfield"` — an object whose `mcpServers` field is a string;
`"toplist"` — a top-level array;
`"alias"` — an object with an empty `mcpServers` and a populated `servers`. -/
def jShapes : String → Except String Json :=
  fun s =>
    if s == "strfield" then .ok (.obj [("mcpServers", .str "oops")])
    else if s == "toplist" then .ok (.arr [])
    else if s == "alias" then
      .ok (.obj [("mcpServers", .obj []),
                 ("servers", .obj [("a", .obj [("command", .str "x")])])])
    else .error "Expecting value: line 1 column 1 (char 0)"

/-- C4 counterexample: a matched registry file that parses as an object
whose `mcpServers` field is a string (wrong shape) yields ZERO entries —
the `isinstance` guard skips silently — not the single synthetic error
entry the claim requires. -/
theorem find_mcp_config_wrong_shape_counterexample :
    find_mcp_config jShapes (fsOneFile "strfield") ["w"] =
      (some ["w", ".claude", "mcp.json"], []) := rfl

/-- C4 amended: for a matched registry file that parses, the wrong-shape
outcome depends on where the shape is wrong: a non-object top level raises
`AttributeError` inside the `try` and yields the single synthetic error
entry, while an object whose resolved servers field is not a mapping yields
zero entries; in both cases the probe loop stops at the matched file (the
result is fully determined by it, lower-precedence candidates are never
consulted). -/
theorem find_mcp_config_wrong_shape (J : String → Except String Json)
    (fs : FS) (w p : FsPath) (ps1 ps2 : List FsPath) (text : String)
    (data : Json)
    (hdec : mcpCandidates fs w = ps1 ++ p :: ps2)
    (hprev : ∀ q ∈ ps1, fs.pathExists q = false)
    (hex : fs.pathExists p = true)
    (hread : fs.readText p = .ok text)
    (hJ : J text = .ok data) :
    (data.isObj = false →
       find_mcp_config J fs w =
         (some p, [errorServer "AttributeError: object has no attribute get"])) ∧
    (∀ fields, data = .obj fields → (serversField fields).isObj = false →
       find_mcp_config J fs w = (some p, [])) := by
  constructor
  · intro hobj
    rw [find_mcp_config_matched J fs w p ps1 ps2 hdec hprev hex]
    simp only [parseMcpFile, hread, hJ, pyGetAttr_of_not_obj data hobj]
  · intro fields hfe hshape
    subst hfe
    rw [find_mcp_config_matched J fs w p ps1 ps2 hdec hprev hex]
    simp only [parseMcpFile, hread, hJ, pyGetAttr,
      entriesOf_of_not_obj _ hshape]

/-- C4 witness: a registry file whose top level is an array yields exactly
the single synthetic `AttributeError` entry. -/
theorem find_mcp_config_wrong_shape_witness :
    find_mcp_config jShapes (fsOneFile "toplist") ["w"] =
      (some ["w", ".claude", "mcp.json"],
       [errorServer "AttributeError: object has no attribute get"]) :=
  (find_mcp_config_wrong_shape jShapes (fsOneFile "toplist") ["w"]
    ["w", ".claude", "mcp.json"] []
    [["w", "mcp.json"], ["w", ".mcp.json"], ["w", "config", "mcp.json"],
     ["w", "config", "mcporter.json"],
     ["home", "user", ".config", "claude", "mcp.json"],
     ["home", "user", ".claude", "mcp.json"]]
    "toplist" (.arr []) rfl (by decide) rfl rfl rfl).1 rfl

/-- C5 counterexample: with `mcpServers` present but empty and `servers`
populated, the code returns zero entries (`dict.get` uses its default only
for an absent key), while reading the populated `servers` field would have
produced one configured entry — so "first populated alias wins" is false. -/
theorem find_mcp_config_alias_counterexample :
    (find_mcp_config jShapes (fsOneFile "alias") ["w"]).2 = [] ∧
    entriesOf (Json.obj [("a", Json.obj [("command", Json.str "x")])]) =
      [{ name := "a", command := some (Json.str "x"), url := none,
         tools_count := none, status := "configured" }] := ⟨rfl, rfl⟩

/-- C5 amended: the first PRESENT alias wins, in the order `mcpServers`
then `servers`: whenever the `mcpServers` key is present (even mapping to
an empty object) its value is the one the entries are read from, and the
`servers` field is consulted only when `mcpServers` is absent. -/
theorem find_mcp_config_alias_first_present (J : String → Except String Json)
    (fs : FS) (w p : FsPath) (ps1 ps2 : List FsPath) (text : String)
    (fields : List (String × Json))
    (hdec : mcpCandidates fs w = ps1 ++ p :: ps2)
    (hprev : ∀ q ∈ ps1, fs.pathExists q = false)
    (hex : fs.pathExists p = true)
    (hread : fs.readText p = .ok text)
    (hJ : J text = .ok (.obj fields)) :
    (∀ m, lookupJ fields "mcpServers" = some m →
       find_mcp_config J fs w = (some p, entriesOf m)) ∧
    (lookupJ fields "mcpServers" = none →
       find_mcp_config J fs w =
         (some p, entriesOf ((lookupJ fields "servers").getD (.obj [])))) := by
  constructor
  · intro m hm
    rw [find_mcp_config_matched J fs w p ps1 ps2 hdec hprev hex]
    simp only [parseMcpFile, hread, hJ, pyGetAttr, serversField, hm,
      Option.getD]
  · intro hm
    rw [find_mcp_config_matched J fs w p ps1 ps2 hdec hprev hex]
    simp only [parseMcpFile, hread, hJ, pyGetAttr, serversField, hm,
      Option.getD]

/-- C5 witness: on the `alias` fixture the present-but-empty `mcpServers`
is the alias read, so the entry list is empty. -/
theorem find_mcp_config_alias_first_present_witness :
    find_mcp_config jShapes (fsOneFile "alias") ["w"] =
      (some ["w", ".claude", "mcp.json"], []) :=
  (find_mcp_config_alias_first_present jShapes (fsOneFile "alias") ["w"]
    ["w", ".claude", "mcp.json"] []
    [["w", "mcp.json"], ["w", ".mcp.json"], ["w", "config", "mcp.json"],
     ["w", "config", "mcporter.json"],
     ["home", "user", ".config", "claude", "mcp.json"],
     ["home", "user", ".claude", "mcp.json"]]
    "alias"
    [("mcpServers", .obj []),
     ("servers", .obj [("a", .obj [("command", .str "x")])])]
    rfl (by decide) rfl rfl rfl).1 (.obj []) rfl

/-! ## C6: invocation synthesis and entry statuses -/

theorem pyJoinStrList_map_str (args : List String) :
    pyJoinStrList (args.map Json.str) = .ok args := by
  induction args with
  | nil => rfl
  | cons a tl ih => simp [pyJoinStrList, ih, Except.map]

theorem mkServer_status (n : String) (c : Json) (s : MCPServer)
    (h : mkServer n c = .ok s) : s.status = "configured" := by
  unfold mkServer at h
  split at h
  · simp at h
  · dsimp only at h
    split at h
    · split at h
      · simp at h
      · rw [Except.ok.injEq] at h
        subst h
        rfl
    · rw [Except.ok.injEq] at h
      subst h
      rfl

theorem buildServers_mem_status (entries : List (String × Json))
    (s : MCPServer) (h : s ∈ (buildServers entries).1) :
    s.status = "configured" := by
  induction entries with
  | nil => simp [buildServers] at h
  | cons pc rest ih =>
    obtain ⟨cn, cc⟩ := pc
    simp only [buildServers] at h
    cases hms : mkServer cn cc with
    | ok s0 =>
      rw [hms] at h
      rcases List.mem_cons.mp h with rfl | hmem
      · exact mkServer_status cn cc s hms
      · exact ih hmem
    | error e =>
      rw [hms] at h
      simp at h

theorem entriesOf_mem_status (j : Json) (s : MCPServer)
    (h : s ∈ entriesOf j) : s.status = "configured" ∨ s.status = "error" := by
  unfold entriesOf at h
  split at h
  · rename_i entries
    split at h
    · rename_i acc heq
      refine Or.inl (buildServers_mem_status entries s ?_)
      rw [heq]
      exact h
    · rename_i acc e heq
      rcases List.mem_append.mp h with hmem | hmem
      · refine Or.inl (buildServers_mem_status entries s ?_)
        rw [heq]
        exact hmem
      · rcases List.mem_singleton.mp hmem with rfl
        exact Or.inr rfl
  · simp at h

theorem parseMcpFile_mem_status (J : String → Except String Json) (fs : FS)
    (p : FsPath) (s : MCPServer) (h : s ∈ parseMcpFile J fs p) :
    s.status = "configured" ∨ s.status = "error" := by
  unfold parseMcpFile at h
  split at h
  · rcases List.mem_singleton.mp h with rfl
    exact Or.inr rfl
  · split at h
    · rcases List.mem_singleton.mp h with rfl
      exact Or.inr rfl
    · split at h
      · rcases List.mem_singleton.mp h with rfl
        exact Or.inr rfl
      · exact entriesOf_mem_status _ s h

theorem find_mcp_config_mem_status (J : String → Except String Json)
    (fs : FS) (w : FsPath) (s : MCPServer)
    (h : s ∈ (find_mcp_config J fs w).2) :
    s.status = "configured" ∨ s.status = "error" := by
  unfold find_mcp_config at h
  split at h
  · simp at h
  · exact parseMcpFile_mem_status J fs _ s h

/-- C6: a well-formed per-entry object with a `command` string and an
`args` list of strings yields an entry whose displayed command is the
command, a space, then the space-joined args, with `status = "configured"`
(every real entry is unconditionally configured); and no entry
`find_mcp_config` ever returns — real or synthetic — carries the
`"unknown"` status. -/
theorem find_mcp_config_invocation_synthesis :
    (∀ name fields cmd args,
       lookupJ fields "command" = some (.str cmd) →
       lookupJ fields "args" = some (.arr (args.map Json.str)) →
       mkServer name (.obj fields) =
         .ok { name := name
               command := some (.str (cmd ++ " " ++ String.intercalate " " args))
               url := pyDictGetVal fields "url"
               tools_count := none
               status := "configured" }) ∧
    (∀ J fs w s, s ∈ (find_mcp_config J fs w).2 → s.status ≠ "unknown") := by
  constructor
  · intro name fields cmd args hcmd hargs
    unfold mkServer
    simp only [pyGetAttr, hargs, hcmd, Option.isSome_some, if_true, pyJoin,
      pyJoinStrList_map_str, Except.map, Option.getD, pyStr, pyDictGetVal]
  · intro J fs w s hmem hstat
    rcases find_mcp_config_mem_status J fs w s hmem with h | h <;>
      rw [hstat] at h <;> simp at h

/-- C6 witness: the spec's example entry
`(command = "node", args = ["server.js", "--port", "3"])` produces the
displayed command `"node server.js --port 3"`, configured. -/
theorem find_mcp_config_invocation_synthesis_witness :
    mkServer "srv"
      (.obj [("command", Json.str "node"),
             ("args", Json.arr [Json.str "server.js", Json.str "--port",
                                Json.str "3"])]) =
      .ok { name := "srv"
            command := some (Json.str "node server.js --port 3")
            url := none
            tools_count := none
            status := "configured" } := by
  have h := find_mcp_config_invocation_synthesis.1 "srv"
    [("command", Json.str "node"),
     ("args", Json.arr [Json.str "server.js", Json.str "--port",
                        Json.str "3"])]
    "node" ["server.js", "--port", "3"] rfl rfl
  exact h

/-! ## C8: the primary-document locator -/

/-- A filesystem where only the lowest-precedence `w/claude.md` exists,
readable with content `"hello claude"`. -/
def fsMdOnly : FS :=
  { pathExists := fun p => p == ["w", "claude.md"]
    isDir := fun _ => false
    readText := fun p =>
      if p == ["w", "claude.md"] then .ok "hello claude"
      else .error "FileNotFoundError"
    listDir := fun _ => .error "FileNotFoundError"
    home := ["home", "user"] }

/-- C8: `find_claude_md` probes `<root>/CLAUDE.md`, `<root>/.claude/CLAUDE.md`,
`<root>/claude.md` in that order and returns the first existing candidate
with its exact text; if the matched file's read raises it still returns the
matched path with the bracketed error string as content; if no candidate
exists it returns `(None, "")`. -/
theorem find_claude_md_spec (fs : FS) (w : FsPath) :
    claudeMdCandidates w =
      [w ++ ["CLAUDE.md"], w ++ [".claude", "CLAUDE.md"], w ++ ["claude.md"]] ∧
    (∀ p ps1 ps2, claudeMdCandidates w = ps1 ++ p :: ps2 →
       (∀ q ∈ ps1, fs.pathExists q = false) → fs.pathExists p = true →
       (∀ content, fs.readText p = .ok content →
          find_claude_md fs w = (some p, content)) ∧
       (∀ e, fs.readText p = .error e →
          find_claude_md fs w = (some p, "[Error reading " ++ pathStr p ++ "]"))) ∧
    ((∀ q ∈ claudeMdCandidates w, fs.pathExists q = false) →
       find_claude_md fs w = (none, "")) := by
  refine ⟨rfl, ?_, ?_⟩
  · intro p ps1 ps2 hdec hprev hex
    have hfe : firstExisting fs (claudeMdCandidates w) = some p := by
      rw [hdec]
      exact firstExisting_append fs ps1 p ps2 hprev hex
    constructor
    · intro content hread
      simp only [find_claude_md, hfe, hread]
    · intro e hread
      simp only [find_claude_md, hfe, hread]
  · intro h
    simp only [find_claude_md, firstExisting_eq_none fs _ h]

/-- C8 witness: with only `w/claude.md` present, that file and its exact
text are returned. -/
theorem find_claude_md_spec_witness :
    find_claude_md fsMdOnly ["w"] = (some ["w", "claude.md"], "hello claude") :=
  ((find_claude_md_spec fsMdOnly ["w"]).2.1 ["w", "claude.md"]
    [["w", "CLAUDE.md"], ["w", ".claude", "CLAUDE.md"]] [] rfl (by decide)
    rfl).1 "hello claude" rfl

/-! ## C9: idempotence of a discovery pass -/

/-- C9: against one filesystem state, two calls of `load_config` with the
same argument produce field-wise equal snapshots (entry and bundle order
included) — the pass is a pure function of the workspace root and the
filesystem state. -/
theorem load_config_idempotent (J : String → Except String Json) (fs : FS)
    (w : FsPath) (c1 c2 : ClaudeConfig)
    (h1 : load_config J fs w = .ok c1) (h2 : load_config J fs w = .ok c2) :
    c1.workspace = c2.workspace ∧
    c1.claude_md_path = c2.claude_md_path ∧
    c1.claude_md_content = c2.claude_md_content ∧
    c1.claude_md_exists = c2.claude_md_exists ∧
    c1.mcp_servers = c2.mcp_servers ∧
    c1.skills = c2.skills ∧
    c1.mcp_config_path = c2.mcp_config_path := by
  rw [h1, Except.ok.injEq] at h2
  subst h2
  exact ⟨rfl, rfl, rfl, rfl, rfl, rfl, rfl⟩

/-- The snapshot two identical passes over `fsMdOnly` both produce. -/
def cfgMdOnly : ClaudeConfig :=
  { workspace := ["w"]
    claude_md_path := some ["w", "claude.md"]
    claude_md_content := "hello claude"
    claude_md_exists := true
    mcp_servers := []
    skills := []
    mcp_config_path := none }

/-- C9 witness: both calls on the `fsMdOnly` state yield `cfgMdOnly`, and
the field-wise equalities hold for that pair. -/
theorem load_config_idempotent_witness :
    cfgMdOnly.workspace = cfgMdOnly.workspace ∧
    cfgMdOnly.claude_md_path = cfgMdOnly.claude_md_path ∧
    cfgMdOnly.claude_md_content = cfgMdOnly.claude_md_content ∧
    cfgMdOnly.claude_md_exists = cfgMdOnly.claude_md_exists ∧
    cfgMdOnly.mcp_servers = cfgMdOnly.mcp_servers ∧
    cfgMdOnly.skills = cfgMdOnly.skills ∧
    cfgMdOnly.mcp_config_path = cfgMdOnly.mcp_config_path :=
  load_config_idempotent jFail fsMdOnly ["w"] cfgMdOnly cfgMdOnly rfl rfl

/-! ## C10: the exists flag is defined by the matched path -/

/-- C10: in every snapshot `load_config` returns, `claude_md_exists` equals
`claude_md_path.isSome`; in particular a matched-but-unreadable primary
document still yields `claude_md_exists = true` with the bracketed error
placeholder as content. -/
theorem load_config_exists_flag (J : String → Except String Json) (fs : FS)
    (w : FsPath) :
    (∀ cfg, load_config J fs w = .ok cfg →
       cfg.claude_md_exists = cfg.claude_md_path.isSome) ∧
    (∀ cfg p ps1 ps2 e, load_config J fs w = .ok cfg →
       claudeMdCandidates w = ps1 ++ p :: ps2 →
       (∀ q ∈ ps1, fs.pathExists q = false) → fs.pathExists p = true →
       fs.readText p = .error e →
       cfg.claude_md_exists = true ∧
       cfg.claude_md_content = "[Error reading " ++ pathStr p ++ "]") := by
  have hmain : ∀ cfg, load_config J fs w = .ok cfg →
      cfg.claude_md_path = (find_claude_md fs w).1 ∧
      cfg.claude_md_content = (find_claude_md fs w).2 ∧
      cfg.claude_md_exists = (find_claude_md fs w).1.isSome := by
    intro cfg h
    unfold load_config at h
    split at h
    · simp at h
    · rw [Except.ok.injEq] at h
      subst h
      exact ⟨rfl, rfl, rfl⟩
  constructor
  · intro cfg h
    obtain ⟨hp, _, he⟩ := hmain cfg h
    rw [he, hp]
  · intro cfg p ps1 ps2 e h hdec hprev hex hread
    obtain ⟨hp, hc, he⟩ := hmain cfg h
    have hf : find_claude_md fs w =
        (some p, "[Error reading " ++ pathStr p ++ "]") :=
      ((find_claude_md_spec fs w).2.1 p ps1 ps2 hdec hprev hex).2 e hread
    constructor
    · rw [he, hf]
      rfl
    · rw [hc, hf]

/-- A filesystem whose only entry is an existing but unreadable
`w/CLAUDE.md`. -/
def fsUnreadableMd : FS :=
  { pathExists := fun p => p == ["w", "CLAUDE.md"]
    isDir := fun _ => false
    readText := fun _ => .error "PermissionError"
    listDir := fun _ => .error "FileNotFoundError"
    home := ["home", "user"] }

/-- The snapshot produced for `fsUnreadableMd`. -/
def cfgUnreadableMd : ClaudeConfig :=
  { workspace := ["w"]
    claude_md_path := some ["w", "CLAUDE.md"]
    claude_md_content := "[Error reading w/CLAUDE.md]"
    claude_md_exists := true
    mcp_servers := []
    skills := []
    mcp_config_path := none }

/-- C10 witness: the unreadable matched document still counts as existing
and carries the bracketed placeholder. -/
theorem load_config_exists_flag_witness :
    cfgUnreadableMd.claude_md_exists = true ∧
    cfgUnreadableMd.claude_md_content = "[Error reading w/CLAUDE.md]" :=
  (load_config_exists_flag jFail fsUnreadableMd ["w"]).2 cfgUnreadableMd
    ["w", "CLAUDE.md"] []
    [["w", ".claude", "CLAUDE.md"], ["w", "claude.md"]]
    "PermissionError" rfl rfl (by decide) rfl rfl

/-! ## C7: the capability-bundle scanner -/

theorem firstDescLine_eq_find (ls : List String) :
    firstDescLine ls =
      (match ls.find? (fun l => !(pyStrip l == "") && !(pyStartsWithHash l)) with
       | none => ""
       | some l => pyTake (pyStrip l) 100) := by
  induction ls with
  | nil => rfl
  | cons l tl ih =>
    simp only [firstDescLine, List.find?]
    cases hc : (!(pyStrip l == "") && !(pyStartsWithHash l)) <;> simp [hc, ih]

/-- C7: the description of a bundle with a readable `SKILL.md` is the first
line that is non-empty after trimming and does not begin with `#`, trimmed
and truncated to 100 characters (`""` when no line qualifies); the spec's
heading/blank/text example yields `"Summarizes text."`; an absent or
unreadable descriptor yields an empty description, and in every case the
bundle is listed under its directory name (an existing qualifying
subdirectory always contributes its `Skill` to the scan result). -/
theorem find_skills_description_rule :
    (∀ content, extractDescription content =
       (match (splitLines content).find?
            (fun l => !(pyStrip l == "") && !(pyStartsWithHash l)) with
        | none => ""
        | some l => pyTake (pyStrip l) 100)) ∧
    extractDescription "# Heading\n\nSummarizes text." = "Summarizes text." ∧
    (∀ fs item n content, fs.pathExists (item ++ ["SKILL.md"]) = true →
       fs.readText (item ++ ["SKILL.md"]) = .ok content →
       mkSkill fs item n =
         { name := n, description := extractDescription content,
           location := pathStr (item ++ ["SKILL.md"]) }) ∧
    (∀ fs item n e, fs.pathExists (item ++ ["SKILL.md"]) = true →
       fs.readText (item ++ ["SKILL.md"]) = .error e →
       mkSkill fs item n =
         { name := n, description := "",
           location := pathStr (item ++ ["SKILL.md"]) }) ∧
    (∀ fs item n, fs.pathExists (item ++ ["SKILL.md"]) = false →
       mkSkill fs item n =
         { name := n, description := "", location := pathStr item }) ∧
    (∀ fs d names n, fs.pathExists d = true → fs.isDir d = true →
       fs.listDir d = .ok names → n ∈ names → fs.isDir (d ++ [n]) = true →
       ∃ l, scanSkillDir fs d = .ok l ∧ mkSkill fs (d ++ [n]) n ∈ l) := by
  refine ⟨fun content => firstDescLine_eq_find _, rfl, ?_, ?_, ?_, ?_⟩
  · intro fs item n content hex hread
    simp only [mkSkill, hex, hread, if_true]
  · intro fs item n e hex hread
    simp only [mkSkill, hex, hread, if_true]
  · intro fs item n hex
    simp only [mkSkill, hex, Bool.false_eq_true, if_false]
  · intro fs d names n hd hdir hls hn hnd
    refine ⟨names.filterMap (fun m =>
      if fs.isDir (d ++ [m]) then some (mkSkill fs (d ++ [m]) m) else none),
      ?_, ?_⟩
    · simp only [scanSkillDir, hd, hdir, hls, and_self, if_true]
    · rw [List.mem_filterMap]
      exact ⟨n, hn, by simp [hnd]⟩

/-- A workspace with one bundle directory `w/skills/summ` whose `SKILL.md`
starts with a heading, a blank line, then `"Summarizes text."`. -/
def fsSkill : FS :=
  { pathExists := fun p =>
      p == ["w", "skills"] || p == ["w", "skills", "summ"] ||
      p == ["w", "skills", "summ", "SKILL.md"]
    isDir := fun p => p == ["w", "skills"] || p == ["w", "skills", "summ"]
    readText := fun p =>
      if p == ["w", "skills", "summ", "SKILL.md"] then
        .ok "# Heading\n\nSummarizes text."
      else .error "FileNotFoundError"
    listDir := fun p =>
      if p == ["w", "skills"] then .ok ["summ"]
      else .error "FileNotFoundError"
    home := ["home", "user"] }

/-- C7 witness: the example bundle's description is `"Summarizes text."`,
recorded under the descriptor path. -/
theorem find_skills_description_rule_witness :
    mkSkill fsSkill ["w", "skills", "summ"] "summ" =
      { name := "summ", description := "Summarizes text.",
        location := "w/skills/summ/SKILL.md" } := by
  have h := find_skills_description_rule.2.2.1 fsSkill ["w", "skills", "summ"]
    "summ" "# Heading\n\nSummarizes text." rfl rfl
  exact h

/-! ## C1: totality of the aggregator -/

/-- A filesystem whose only entry is a skills directory that exists and is
a directory but whose enumeration raises `PermissionError`. -/
def fsDenied : FS :=
  { pathExists := fun p => p == ["w", "skills"]
    isDir := fun p => p == ["w", "skills"]
    readText := fun _ => .error "FileNotFoundError"
    listDir := fun _ => .error "PermissionError: [Errno 13] Permission denied"
    home := ["home", "user"] }

/-- C1 counterexample: `find_skills` guards only the `SKILL.md` read, not
`iterdir()`; on a workspace whose `skills` directory exists but cannot be
enumerated, the failure escapes `load_config`, so the no-escape claim is
false as stated. -/
theorem load_config_no_escape_counterexample :
    load_config jFail fsDenied ["w"] =
      .error "PermissionError: [Errno 13] Permission denied" := rfl

/-- The all-empty snapshot for workspace `w`. -/
def emptyCfg (w : FsPath) : ClaudeConfig :=
  { workspace := w
    claude_md_path := none
    claude_md_content := ""
    claude_md_exists := false
    mcp_servers := []
    skills := []
    mcp_config_path := none }

/-- C1 amended: `load_config` fails exactly when the capability-bundle
scanner fails (a directory-enumeration failure is the only escape; the
primary-document and integration-registry probes never abort it), and on a
filesystem where no candidate file or directory exists at all it returns
the mostly-empty snapshot — `claude_md_exists = false`, no entries, no
bundles — without error. -/
theorem load_config_empty_and_totality (J : String → Except String Json)
    (fs : FS) (w : FsPath) :
    (load_config J fs w).isOk = (find_skills fs w).isOk ∧
    ((∀ p, fs.pathExists p = false) →
       load_config J fs w = .ok (emptyCfg w)) := by
  constructor
  · exact load_config_isOk_eq J fs w
  · intro h
    have h1 : find_claude_md fs w = (none, "") := by
      simp only [find_claude_md, firstExisting_eq_none fs _ (fun q _ => h q)]
    have h2 : find_mcp_config J fs w = (none, []) := by
      simp only [find_mcp_config, firstExisting_eq_none fs _ (fun q _ => h q)]
    have h3 : find_skills fs w = .ok [] := by
      simp [find_skills, find_skills_go, skillRoots, scanSkillDir, h]
    simp [load_config, h1, h2, h3, emptyCfg]

/-- A filesystem where nothing exists at all. -/
def fsEmpty : FS :=
  { pathExists := fun _ => false
    isDir := fun _ => false
    readText := fun _ => .error "FileNotFoundError"
    listDir := fun _ => .error "FileNotFoundError"
    home := ["home", "user"] }

/-- C1 witness: on the empty filesystem the pass returns the mostly-empty
snapshot with no error. -/
theorem load_config_empty_and_totality_witness :
    load_config jFail fsEmpty ["w"] = .ok (emptyCfg ["w"]) :=
  (load_config_empty_and_totality jFail fsEmpty ["w"]).2 (fun _ => rfl)
